import Mathlib

/-!
Shallow embedding of the PhonePe dashboard script (`Dashboard.py`): the
filter-propagation and aggregation layer.  Tables are modelled as a column
list plus rows of typed scalar values; the pandas operations used by the
script (`isin` filtering, `dropna`/`unique`/`sorted` dimension extraction,
`pivot_table`, `groupby(...).sum().unstack(fill_value=0)`, `pd.cut` binning,
the `year + "-Q" + quarter` composite key with `DataFrame.pivot`, `copy`
plus column assignment) are embedded as executable Lean functions, and the
script's frame manipulations are replayed over an explicit heap of
DataFrame references.  Floats are modelled as exact rationals; sorting of
strings is lexicographic on code points, matching Python's string order.
-/

/-- A scalar cell value: a string, an integer, a float (modelled as an exact
rational), or a null/NaN entry. -/
inductive Value where
  | str (s : String)
  | int (n : Int)
  | rat (q : ℚ)
  | null
deriving DecidableEq

/-- `astype(str)` on a scalar: strings pass through, integers print in
decimal, NaN prints as "nan".  (Rationals stand in for floats; their print
form is only used where the script stringifies year/quarter integers.) -/
def valueToString : Value → String
  | .str s => s
  | .int n => toString n
  | .rat q => toString q
  | .null => "nan"

/-- Is the value a (non-null) string? -/
def Value.isStr : Value → Bool
  | .str _ => true
  | _ => false

/-- Numeric content of a cell, if any. -/
def valNum : Value → Option ℚ
  | .int n => some (n : ℚ)
  | .rat q => some q
  | _ => none

/-- Numeric content with default 0 where a number is needed. -/
def numOf (v : Value) : ℚ := (valNum v).getD 0

/-- Lexicographic order on character lists by code point (Python's string
order). -/
def charsLE : List Char → List Char → Bool
  | [], _ => true
  | _ :: _, [] => false
  | a :: as, b :: bs => if a < b then true else if b < a then false else charsLE as bs

/-- Strict lexicographic order on character lists by code point. -/
def charsLT : List Char → List Char → Bool
  | [], [] => false
  | [], _ :: _ => true
  | _ :: _, [] => false
  | a :: as, b :: bs => if a < b then true else if b < a then false else charsLT as bs

/-- Lexicographic string order (Python's `<=` on strings). -/
def strLE (a b : String) : Bool := charsLE a.data b.data

/-- Strict lexicographic string order (Python's `<` on strings). -/
def strLT (a b : String) : Bool := charsLT a.data b.data

/-- The proposition carried by a boolean comparator. -/
def brel (f : α → α → Bool) (a b : α) : Prop := f a b = true

instance (f : α → α → Bool) : DecidableRel (brel f) :=
  fun a b => instDecidableEqBool (f a b) true

/-- A stable sort by a boolean comparator (Python's `sorted` and pandas'
`sort_values` are stable sorts). -/
def sortB (le : α → α → Bool) (l : List α) : List α := List.insertionSort (brel le) l

/-- Sort a list of strings lexicographically ascending. -/
def sortStr (l : List String) : List String := sortB strLE l

/-- A DataFrame: an ordered column list and ordered rows; row `i`'s cell for
column `j` sits at position `j` of the row list. -/
structure Table where
  cols : List String
  rows : List (List Value)
deriving DecidableEq

/-- `col in df.columns`. -/
def Table.hasCol (t : Table) (c : String) : Bool := t.cols.contains c

/-- The cell of row `r` in column `c` (null when the column is absent). -/
def rowVal (t : Table) (c : String) (r : List Value) : Value :=
  r.getD (t.cols.indexOf c) Value.null

/-- `df[c]` as a list of cell values. -/
def colVals (t : Table) (c : String) : List Value :=
  t.rows.map (fun r => rowVal t c r)

/-- `Series.isin(selected)` for a selection of strings (the state filter):
a cell matches iff it is a string occurring in the selection; a null cell
never matches a string list. -/
def isinSel (v : Value) (sel : List String) : Bool :=
  match v with
  | .str s => sel.contains s
  | _ => false

/-- Filter helper of the script (lines 65-66):
`df[df[col].isin(selected_states)] if col in df.columns else df`. -/
def _f (selected_states : List String) (df : Table) (col : String) : Table :=
  if df.hasCol col then
    { df with rows := df.rows.filter (fun r => isinSel (rowVal df col r) selected_states) }
  else df

/-- Category filter of the script (line 69):
`df_cat[df_cat.category_name.isin(selected_cats)]`; the selection holds raw
cell values (no `astype(str)` is applied on this path). -/
def filterCat (selected_cats : List Value) (df_cat : Table) : Table :=
  { df_cat with
    rows := df_cat.rows.filter (fun r => selected_cats.contains (rowVal df_cat "category_name" r)) }

/-- `df[c].dropna().astype(str)`: the stringified non-null entries of a
column, in row order. -/
def dropnaStrs (t : Table) (c : String) : List String :=
  (colVals t c).filterMap
    (fun v => match v with | Value.null => none | w => some (valueToString w))

/-- `all_states` (lines 46-51): the ascending sorted set-union of the
non-null stringified `state_name` values of `df1`, `df3`, `df4`, `df5`
(`sorted(set(...) | set(...) | set(...) | set(...))`). -/
def all_states (df1 df3 df4 df5 : Table) : List String :=
  sortStr ((dropnaStrs df1 "state_name" ++ dropnaStrs df3 "state_name" ++
            dropnaStrs df4 "state_name" ++ dropnaStrs df5 "state_name").dedup)

/-- The same computation over an arbitrary list of source tables (used to
state order-independence of the combination). -/
def allStatesL (ts : List Table) : List String :=
  sortStr ((ts.foldr (fun t acc => dropnaStrs t "state_name" ++ acc) []).dedup)

/-- Deduplication keeping first occurrences, with an accumulator of values
already seen. -/
def uniqueAux (seen : List Value) : List Value → List Value
  | [] => []
  | v :: vs => if seen.contains v then uniqueAux seen vs else v :: uniqueAux (v :: seen) vs

/-- `Series.unique()`: deduplication keeping first occurrences (nulls are
kept, and repeated nulls collapse to a single null as pandas treats all NaN
as one). -/
def uniqueFS (l : List Value) : List Value := uniqueAux [] l

/-- Python `sorted(...)` on a list of cell values: an all-string list sorts
lexicographically, an all-numeric list sorts numerically, a list of at most
one element is returned as is, and any other mixed list raises `TypeError`
(modelled as `none`). -/
def pythonSorted (l : List Value) : Option (List Value) :=
  if l.all Value.isStr then
    some (sortB (fun a b => strLE (valueToString a) (valueToString b)) l)
  else if l.all (fun v => (valNum v).isSome) then
    some (sortB (fun a b => decide (numOf a ≤ numOf b)) l)
  else if l.length ≤ 1 then some l
  else none

/-- `all_categories` (line 59): `sorted(df_cat.category_name.unique())` —
note there is no `dropna` on this path. -/
def all_categories (df_cat : Table) : Option (List Value) :=
  pythonSorted (uniqueFS (colVals df_cat "category_name"))

/-! ### Pivot and group-aggregate (lines 106-107 and 117-118) -/

/-- The rows contributing to the pivot cell keyed by (`rk`, `ck`): rows whose
index-column and columns-column values are non-null (pandas drops NaN group
keys) and stringify to the two keys. -/
def contribRows (t : Table) (i c : String) (rk ck : String) : List (List Value) :=
  t.rows.filter (fun r =>
    (rowVal t i r != Value.null) && (rowVal t c r != Value.null) &&
    (valueToString (rowVal t i r) == rk) && (valueToString (rowVal t c r) == ck))

/-- The `sum` aggregation over the value column of a group of rows (pandas
`sum` skips NaN entries). -/
def aggSum (t : Table) (v : String) (rs : List (List Value)) : ℚ :=
  (rs.filterMap (fun r => valNum (rowVal t v r))).sum

/-- One cell of `df.pivot_table(index=i, columns=c, values=v, aggfunc="sum")`
(lines 106-107): the summed contributions, or `none` (NaN) when no source
row contributes — the script declares no `fill_value` there, so pandas'
default NaN applies. -/
def pivotTableCell (t : Table) (i c v : String) (rk ck : String) : Option ℚ :=
  match contribRows t i c rk ck with
  | [] => none
  | rs => some (aggSum t v rs)

/-- One cell of
`df.groupby([i, c])[v].sum().unstack(fill_value=0)` (lines 117-118):
as `pivotTableCell`, but a cell with no contributing rows is filled with 0. -/
def unstackCell (t : Table) (i c v : String) (rk ck : String) : ℚ :=
  match pivotTableCell t i c v rk ck with
  | some q => q
  | none => 0

/-- The sorted distinct non-null stringified keys of a column, as pandas
presents a pivoted axis. -/
def sortedKeys (t : Table) (c : String) : List String :=
  sortStr (dropnaStrs t c).dedup

/-- The full grid of `pivot_table(index=i, columns=c, values=v,
aggfunc="sum")` as a table: one row per index key, one column per columns
key, NaN cells for empty groups. -/
def pivotTableGrid (t : Table) (i c v : String) : Table :=
  { cols := i :: sortedKeys t c,
    rows := (sortedKeys t i).map (fun rk =>
      Value.str rk :: (sortedKeys t c).map (fun ck =>
        match pivotTableCell t i c v rk ck with
        | some q => Value.rat q
        | none => Value.null)) }

/-- The full grid of `groupby([i, c])[v].sum().unstack(fill_value=0)` as a
table: empty cells filled with 0. -/
def unstackGrid (t : Table) (i c v : String) : Table :=
  { cols := i :: sortedKeys t c,
    rows := (sortedKeys t i).map (fun rk =>
      Value.str rk :: (sortedKeys t c).map (fun ck =>
        Value.rat (unstackCell t i c v rk ck))) }

/-! ### Composite year-quarter key and `DataFrame.pivot` (lines 219-222) -/

/-- The display string of the composite key for one row (line 220):
`year.astype(str) + "-Q" + quarter.astype(str)`. -/
def timeStr (t : Table) (r : List Value) : String :=
  valueToString (rowVal t "year" r) ++ "-Q" ++ valueToString (rowVal t "quarter" r)

/-- The composite display string for a concrete (year, quarter) pair. -/
def mkTime (y q : Int) : String := toString y ++ "-Q" ++ toString q

/-- `df_area["time"] = ...` (line 220): append the computed `time` column. -/
def addTimeCol (t : Table) : Table :=
  { cols := t.cols ++ ["time"],
    rows := t.rows.map (fun r => r ++ [Value.str (timeStr t r)]) }

/-- The (state, year, quarter) comparator of
`sort_values(["state_name", "year", "quarter"])`: lexicographic on the
state string, then the numeric year, then the numeric quarter. -/
def syqLE (t : Table) (r1 r2 : List Value) : Bool :=
  let s1 := valueToString (rowVal t "state_name" r1)
  let s2 := valueToString (rowVal t "state_name" r2)
  strLT s1 s2 || (s1 == s2 &&
    (decide (numOf (rowVal t "year" r1) < numOf (rowVal t "year" r2)) ||
     (numOf (rowVal t "year" r1) == numOf (rowVal t "year" r2) &&
      decide (numOf (rowVal t "quarter" r1) ≤ numOf (rowVal t "quarter" r2)))))

/-- `df_area.sort_values(["state_name", "year", "quarter"])` (line 221):
a stable sort of the rows by the (state, year, quarter) key. -/
def sortValuesSYQ (t : Table) : Table :=
  { t with rows := sortB (syqLE t) t.rows }

/-- The `df_area` pipeline of lines 219-221 applied to the filtered
insurance table: attach the `time` column, then sort rows by
(state, year, quarter). -/
def dfAreaPipeline (t : Table) : Table := sortValuesSYQ (addTimeCol t)

/-- The result of `df.pivot(index="time", columns="state_name",
values="total_value")` (line 222): the row index (pandas sorts it
lexicographically by the index values) together with the
(time, state, value) triples of the source rows. -/
structure PivotResult where
  index : List String
  cells : List (String × String × Value)
deriving DecidableEq

/-- `df.pivot(index="time", columns="state_name", values="total_value")`
(line 222): fails (pandas `ValueError`) when some (time, state) pair occurs
in more than one row; otherwise returns the lexicographically sorted time
index and the cell triples. -/
def pivotVal (t : Table) : Except String PivotResult :=
  let pairs := t.rows.map (fun r =>
    (timeStr t r, valueToString (rowVal t "state_name" r), rowVal t "total_value" r))
  if (pairs.map (fun p => (p.1, p.2.1))).Nodup then
    Except.ok ⟨sortStr ((pairs.map (fun p => p.1)).dedup), pairs⟩
  else Except.error "Index contains duplicate entries, cannot reshape"

/-- The time index of the pivoted area-chart view (empty when the pivot
raises). -/
def pivotIndexOf (t : Table) : List String :=
  match pivotVal t with
  | Except.ok p => p.index
  | Except.error _ => []

/-- Did a pivot succeed? -/
def exceptOk : Except String PivotResult → Bool
  | Except.ok _ => true
  | Except.error _ => false

/-! ### Binning (lines 175-177) -/

/-- `pd.cut(x, bins, labels)` with pandas' default `right=True`: `x` falls
in bucket `i` iff `bins[i] < x ≤ bins[i+1]`, and a value in no bucket is
NaN (`none`). -/
def pdCut : List ℚ → List String → ℚ → Option String
  | lo :: hi :: bs, lab :: labs, x =>
    if lo < x ∧ x ≤ hi then some lab else pdCut (hi :: bs) labs x
  | _, _, _ => none

/-- The `usage_tier` of a usage value (lines 175-177):
`pd.cut(avg_percentage_usage, bins=[0, .1, .2, .3],
labels=["Low", "Medium", "High"])`. -/
def usage_tier (x : ℚ) : Option String :=
  pdCut [0, 1/10, 2/10, 3/10] ["Low", "Medium", "High"] x

/-- The `usage_tier` cell written into `df2_sb` for one usage cell, after
`.astype(str)` (NaN becomes "nan"). -/
def usageTierStr (v : Value) : String :=
  match valNum v with
  | some q => (usage_tier q).getD "nan"
  | none => "nan"

/-- `df2_sb["usage_tier"] = pd.cut(...).astype(str)` (lines 175-177). -/
def addUsageTier (t : Table) : Table :=
  { cols := t.cols ++ ["usage_tier"],
    rows := t.rows.map (fun r => r ++ [Value.str (usageTierStr (rowVal t "avg_percentage_usage" r))]) }

/-- `df.sort_values(c, ascending=False)` (lines 144, 243): a stable sort of
the rows by descending numeric value of column `c`. -/
def sortByColDesc (t : Table) (c : String) : Table :=
  { t with rows := sortB (fun r1 r2 => decide (numOf (rowVal t c r2) ≤ numOf (rowVal t c r1))) t.rows }

/-! ### Filter State assignment -/

/-- The error raised when a selection contains a value outside the
dimension's valid value set. -/
inductive FilterError where
  | InvalidValueError
deriving DecidableEq

/-- Modelled from the spec: the Filter State `set(dimension_name,
selected_values)` operation — the script delegates selection to an external
UI widget (`st.sidebar.multiselect`, lines 54-62) whose options are the
dimension's valid values, so no `set` body exists in the source; per the
spec it replaces the selection, failing with `InvalidValueError` if any
candidate value is outside the dimension's valid value set. -/
def setSelection (valid : List String) (selected_values : List String) :
    Except FilterError (List String) :=
  if selected_values.all (fun v => valid.contains v) then Except.ok selected_values
  else Except.error FilterError.InvalidValueError

/-- The selection state after a `set` call: the new selection on success,
the previous selection unchanged on rejection (atomic set-or-reject). -/
def afterSet (valid : List String) (current : List String)
    (selected_values : List String) : List String :=
  match setSelection valid selected_values with
  | Except.ok s => s
  | Except.error _ => current

/-! ### A heap of DataFrame references

The script binds frames to Python variables; `copy()` allocates a fresh
frame, column assignment (`df[...] = ...`) mutates the bound frame in
place, and every other operation used (filtering, `sort_values`, pivoting)
returns a new frame.  Replaying the script over this heap makes "source
tables are never mutated" a real statement: dropping the `copy()` before a
column assignment would falsify it. -/

structure Heap where
  cells : List (Nat × Table)
  next : Nat

/-- Read the frame bound to a reference (an unbound reference reads as the
empty frame). -/
def Heap.read (h : Heap) (r : Nat) : Table :=
  ((h.cells.find? (fun c => c.1 == r)).map (fun c => c.2)).getD ⟨[], []⟩

/-- Bind a new frame, returning its fresh reference. -/
def Heap.alloc (h : Heap) (t : Table) : Heap × Nat :=
  (⟨(h.next, t) :: h.cells, h.next + 1⟩, h.next)

/-- In-place mutation of the frame bound to `r` (pandas `df[...] = ...`). -/
def Heap.write (h : Heap) (r : Nat) (t : Table) : Heap :=
  ⟨h.cells.map (fun c => if c.1 == r then (r, t) else c), h.next⟩

/-- `df.copy()`: allocate a fresh frame holding the same table. -/
def Heap.copy (h : Heap) (r : Nat) : Heap × Nat :=
  h.alloc (h.read r)

/-- The references of the six source frames loaded at startup
(lines 37-42). -/
structure Refs where
  r1 : Nat
  r2 : Nat
  r3 : Nat
  r4 : Nat
  r5 : Nat
  rcat : Nat

/-- Load the six source tables into a fresh heap (lines 37-42). -/
def loadAll (t1 t2 t3 t4 t5 tcat : Table) : Heap × Refs :=
  let (h1, a1) := Heap.alloc ⟨[], 0⟩ t1
  let (h2, a2) := h1.alloc t2
  let (h3, a3) := h2.alloc t3
  let (h4, a4) := h3.alloc t4
  let (h5, a5) := h4.alloc t5
  let (h6, a6) := h5.alloc tcat
  (h6, ⟨a1, a2, a3, a4, a5, a6⟩)

/-- Replay the script's frame derivations over the heap: the four state
filters and the category filter (lines 68-69), the heatmap pivot (106-107),
the stacked-bar unstack (117-118), the device sort view (144), the sunburst
copy plus `usage_tier` assignment (174-177), the area-chart copy, `time`
assignment and sort (219-221), and the growth sort view (243).  Returns the
final heap and the references of the derived frames. -/
def runDashboard (h0 : Heap) (rs : Refs) (selS : List String) (selC : List Value) :
    Heap × List Nat :=
  let (h1, f1) := h0.alloc (_f selS (h0.read rs.r1) "state_name")
  let (h2, f3) := h1.alloc (_f selS (h1.read rs.r3) "state_name")
  let (h3, f4) := h2.alloc (_f selS (h2.read rs.r4) "state_name")
  let (h4, f5) := h3.alloc (_f selS (h3.read rs.r5) "state_name")
  let (h5, fc) := h4.alloc (filterCat selC (h4.read rs.rcat))
  let (h6, hm) := h5.alloc (pivotTableGrid (h5.read f1) "state_name" "quarter" "total_transactions")
  let (h7, stk) := h6.alloc (unstackGrid (h6.read f1) "quarter" "state_name" "total_amount")
  let (h8, srt2) := h7.alloc (sortByColDesc (h7.read rs.r2) "total_registered_users")
  let (h9, sb) := h8.copy rs.r2
  let h10 := h9.write sb (addUsageTier (h9.read sb))
  let (h11, ar) := h10.copy f3
  let h12 := h11.write ar (addTimeCol (h11.read ar))
  let (h13, ar2) := h12.alloc (sortValuesSYQ (h12.read ar))
  let (h14, srt4) := h13.alloc (sortByColDesc (h13.read f4) "growth_percent")
  (h14, [f1, f3, f4, f5, fc, hm, stk, srt2, sb, ar, ar2, srt4])

/-! ### Concrete tables used in counterexamples and witnesses -/

/-- A table whose only row has a null `state_name`. -/
def nullStateT : Table := ⟨["state_name"], [[Value.null]]⟩

/-- An empty table with a `state_name` column. -/
def emptyStateT : Table := ⟨["state_name"], []⟩

/-- A category table whose only row has a null `category_name`. -/
def catNullT : Table := ⟨["category_name"], [[Value.null]]⟩

/-- The spec's pivot example: rows {(A,X,3), (A,X,5), (B,Y,2)}. -/
def pivotExT : Table :=
  ⟨["state_name", "quarter", "total_transactions"],
   [[Value.str "A", Value.str "X", Value.int 3],
    [Value.str "A", Value.str "X", Value.int 5],
    [Value.str "B", Value.str "Y", Value.int 2]]⟩

/-- An insurance-style table with years 999 and 1000 (differing digit
counts), one state, quarter 1. -/
def area999T : Table :=
  ⟨["state_name", "year", "quarter", "total_value"],
   [[Value.str "a", Value.int 999, Value.int 1, Value.int 5],
    [Value.str "a", Value.int 1000, Value.int 1, Value.int 7]]⟩

/-- An insurance-style table with rows (2024, Q1) and (2023, Q4). -/
def area2023T : Table :=
  ⟨["state_name", "year", "quarter", "total_value"],
   [[Value.str "a", Value.int 2024, Value.int 1, Value.int 7],
    [Value.str "a", Value.int 2023, Value.int 4, Value.int 5]]⟩

/-- A small state table used in witnesses. -/
def wStateT : Table :=
  ⟨["state_name", "year"],
   [[Value.str "goa", Value.int 2023], [Value.str "kerala", Value.int 2024]]⟩

/-- A small category table used in witnesses. -/
def wCatT : Table :=
  ⟨["category_name"], [[Value.str "rent"], [Value.str "food"]]⟩

/-- A table without a `state_name` column, used in witnesses. -/
def noStateColT : Table := ⟨["brand"], [[Value.str "apple"]]⟩

/-! ## Order properties of the lexicographic comparator -/

theorem charsLE_total : ∀ a b : List Char, charsLE a b = true ∨ charsLE b a = true := by
  intro a
  induction a with
  | nil => intro b; left; rfl
  | cons x xs ih =>
    intro b
    cases b with
    | nil => right; rfl
    | cons y ys =>
      rcases lt_trichotomy x y with h | h | h
      · left; simp [charsLE, h]
      · subst h
        rcases ih ys with h2 | h2
        · left; simpa [charsLE] using h2
        · right; simpa [charsLE] using h2
      · right; simp [charsLE, h]

theorem charsLE_trans :
    ∀ a b c : List Char, charsLE a b = true → charsLE b c = true → charsLE a c = true := by
  intro a
  induction a with
  | nil => intro b c _ _; rfl
  | cons x xs ih =>
    intro b c hab hbc
    cases b with
    | nil => simp [charsLE] at hab
    | cons y ys =>
      cases c with
      | nil => simp [charsLE] at hbc
      | cons z zs =>
        rcases lt_trichotomy x y with hxy | hxy | hxy
        · rcases lt_trichotomy y z with hyz | hyz | hyz
          · simp [charsLE, lt_trans hxy hyz]
          · subst hyz; simp [charsLE, hxy]
          · simp [charsLE, hyz, asymm hyz] at hbc
        · subst hxy
          rcases lt_trichotomy x z with hxz | hxz | hxz
          · simp [charsLE, hxz]
          · subst hxz
            simp only [charsLE, lt_irrefl, if_false] at hab hbc ⊢
            exact ih ys zs hab hbc
          · simp [charsLE, hxz, asymm hxz] at hbc
        · simp [charsLE, hxy, asymm hxy] at hab

theorem charsLE_antisymm :
    ∀ a b : List Char, charsLE a b = true → charsLE b a = true → a = b := by
  intro a
  induction a with
  | nil =>
    intro b _ hba
    cases b with
    | nil => rfl
    | cons y ys => simp [charsLE] at hba
  | cons x xs ih =>
    intro b hab hba
    cases b with
    | nil => simp [charsLE] at hab
    | cons y ys =>
      rcases lt_trichotomy x y with h | h | h
      · simp [charsLE, h, asymm h] at hba
      · subst h
        simp only [charsLE, lt_irrefl, if_false] at hab hba
        exact congrArg (x :: ·) (ih ys hab hba)
      · simp [charsLE, h, asymm h] at hab

theorem strLE_total (a b : String) : strLE a b = true ∨ strLE b a = true :=
  charsLE_total a.data b.data

theorem strLE_trans {a b c : String} (h1 : strLE a b = true) (h2 : strLE b c = true) :
    strLE a c = true :=
  charsLE_trans a.data b.data c.data h1 h2

theorem strLE_antisymm {a b : String} (h1 : strLE a b = true) (h2 : strLE b a = true) :
    a = b := by
  cases a with
  | mk da => cases b with
    | mk db => exact congrArg String.mk (charsLE_antisymm da db h1 h2)

/-! ## Generic facts about the stable sort `sortB` -/

theorem sortB_perm (le : α → α → Bool) (l : List α) : List.Perm (sortB le l) l :=
  List.perm_insertionSort _ l

theorem mem_sortB {le : α → α → Bool} {l : List α} {a : α} :
    a ∈ sortB le l ↔ a ∈ l :=
  List.mem_insertionSort _

theorem sortB_nodup {le : α → α → Bool} {l : List α} (h : l.Nodup) :
    (sortB le l).Nodup :=
  ((sortB_perm le l).nodup_iff).mpr h

theorem sortB_sorted (le : α → α → Bool)
    (htot : ∀ a b, le a b = true ∨ le b a = true)
    (htrans : ∀ a b c, le a b = true → le b c = true → le a c = true)
    (l : List α) : (sortB le l).Sorted (brel le) := by
  letI : IsTotal α (brel le) := ⟨htot⟩
  letI : IsTrans α (brel le) := ⟨htrans⟩
  exact List.sorted_insertionSort _ l

theorem sortStr_sorted (l : List String) : (sortStr l).Sorted (brel strLE) :=
  sortB_sorted strLE strLE_total (fun _ _ _ => strLE_trans) l

/-- Two sorted duplicate-free string lists with the same members are
equal. -/
theorem sortStr_eq_of_same_mem {l1 l2 : List String} (h1 : l1.Nodup) (h2 : l2.Nodup)
    (hm : ∀ s, s ∈ l1 ↔ s ∈ l2) : sortStr l1 = sortStr l2 := by
  letI : IsAntisymm String (brel strLE) := ⟨fun _ _ => strLE_antisymm⟩
  refine List.eq_of_perm_of_sorted ?_ (sortStr_sorted l1) (sortStr_sorted l2)
  refine ((sortB_perm strLE l1).trans ?_).trans (sortB_perm strLE l2).symm
  exact (List.perm_ext_iff_of_nodup h1 h2).mpr hm

/-! ## Facts about `uniqueFS` and `pythonSorted` -/

theorem mem_uniqueAux {x : Value} :
    ∀ (l seen : List Value), x ∈ uniqueAux seen l ↔ x ∈ l ∧ ¬ x ∈ seen := by
  intro l
  induction l with
  | nil => intro seen; simp [uniqueAux]
  | cons v vs ih =>
    intro seen
    by_cases hv : v ∈ seen
    · rw [uniqueAux, if_pos (List.elem_iff.mpr hv), ih]
      constructor
      · rintro ⟨h1, h2⟩
        exact ⟨List.mem_cons_of_mem _ h1, h2⟩
      · rintro ⟨h1, h2⟩
        rcases List.mem_cons.mp h1 with rfl | h1
        · exact absurd hv h2
        · exact ⟨h1, h2⟩
    · rw [uniqueAux, if_neg (fun hc => hv (List.elem_iff.mp hc))]
      constructor
      · intro h
        rcases List.mem_cons.mp h with rfl | h
        · exact ⟨List.mem_cons_self _ _, hv⟩
        · rcases (ih (v :: seen)).mp h with ⟨h1, h2⟩
          exact ⟨List.mem_cons_of_mem _ h1, fun hs => h2 (List.mem_cons_of_mem _ hs)⟩
      · rintro ⟨h1, h2⟩
        rcases List.mem_cons.mp h1 with rfl | h1
        · exact List.mem_cons_self _ _
        · by_cases hxv : x = v
          · subst hxv; exact List.mem_cons_self _ _
          · refine List.mem_cons_of_mem _ ((ih (v :: seen)).mpr ⟨h1, ?_⟩)
            intro hs
            rcases List.mem_cons.mp hs with h | h
            · exact hxv h
            · exact h2 h

theorem mem_uniqueFS_of_mem {x : Value} {l : List Value} (h : x ∈ l) :
    x ∈ uniqueFS l :=
  (mem_uniqueAux l []).mpr ⟨h, by simp⟩

theorem mem_of_mem_uniqueFS {x : Value} {l : List Value} (h : x ∈ uniqueFS l) :
    x ∈ l :=
  ((mem_uniqueAux l []).mp h).1

theorem uniqueAux_nodup : ∀ (l seen : List Value), (uniqueAux seen l).Nodup := by
  intro l
  induction l with
  | nil => intro seen; exact List.nodup_nil
  | cons v vs ih =>
    intro seen
    by_cases hv : v ∈ seen
    · rw [uniqueAux, if_pos (List.elem_iff.mpr hv)]
      exact ih seen
    · rw [uniqueAux, if_neg (fun hc => hv (List.elem_iff.mp hc))]
      refine List.nodup_cons.mpr ⟨fun hmem => ?_, ih (v :: seen)⟩
      exact ((mem_uniqueAux vs (v :: seen)).mp hmem).2 (List.mem_cons_self _ _)

theorem uniqueFS_nodup (l : List Value) : (uniqueFS l).Nodup :=
  uniqueAux_nodup l []

theorem pythonSorted_mem {l l' : List Value} (h : pythonSorted l = some l') :
    ∀ x ∈ l, x ∈ l' := by
  intro x hx
  unfold pythonSorted at h
  split_ifs at h with h1 h2 h3
  · cases h; exact mem_sortB.mpr hx
  · cases h; exact mem_sortB.mpr hx
  · cases h; exact hx

/-! ## Facts about the filter helpers -/

theorem isStr_exists {v : Value} (h : v.isStr = true) : ∃ s, v = Value.str s := by
  cases v <;> simp_all [Value.isStr]

theorem _f_eq_self {sel : List String} {t : Table} {col : String}
    (h : ∀ r ∈ t.rows, isinSel (rowVal t col r) sel = true) :
    _f sel t col = t := by
  unfold _f
  split_ifs with hc
  · rw [List.filter_eq_self.mpr h]
  · rfl

theorem mem_dropnaStrs_of {t : Table} {c s : String}
    (h : Value.str s ∈ colVals t c) : s ∈ dropnaStrs t c := by
  unfold dropnaStrs
  rw [List.mem_filterMap]
  exact ⟨Value.str s, h, rfl⟩

theorem isinSel_mono {v : Value} {sel sel' : List String} (hsub : sel ⊆ sel')
    (h : isinSel v sel = true) : isinSel v sel' = true := by
  cases v with
  | str s =>
    simp only [isinSel] at h ⊢
    exact List.elem_iff.mpr (hsub (List.elem_iff.mp h))
  | int n => simp [isinSel] at h
  | rat q => simp [isinSel] at h
  | null => simp [isinSel] at h

/-! ## C1 -/

/-- C1 counterexample: with the full valid value set selected (here the
empty set, since the only `state_name` entry is null and `all_states`
drops nulls), the filter helper `_f` drops the null row, so it is not the
identity on a table containing a null entry in the dimension column. -/
theorem full_selection_drops_null_row :
    _f (all_states nullStateT emptyStateT emptyStateT emptyStateT) nullStateT "state_name"
      ≠ nullStateT := by decide

/-- C1 (amended): at full selection the filters are identities on tables
whose dimension column holds only non-null string values: `_f` with
`selected_states = all_states` returns each such source table unchanged,
and the category filter with `selected_cats = all_categories` returns the
category table unchanged; rows with a null dimension entry are dropped
(see the counterexample), because `all_states` excludes nulls. -/
theorem filter_identity_at_full_selection
    (t1 t3 t4 t5 t : Table) (ht : t ∈ [t1, t3, t4, t5])
    (hs : ∀ r ∈ t.rows, (rowVal t "state_name" r).isStr = true)
    (tc : Table) (sel : List Value)
    (_hcs : ∀ v ∈ colVals tc "category_name", v.isStr = true)
    (hsel : all_categories tc = some sel) :
    _f (all_states t1 t3 t4 t5) t "state_name" = t ∧ filterCat sel tc = tc := by
  constructor
  · apply _f_eq_self
    intro r hr
    obtain ⟨s, hv⟩ := isStr_exists (hs r hr)
    rw [hv]
    have hcol : Value.str s ∈ colVals t "state_name" := by
      rw [← hv]
      exact List.mem_map_of_mem _ hr
    have hmem : s ∈ all_states t1 t3 t4 t5 := by
      unfold all_states sortStr
      rw [mem_sortB, List.mem_dedup]
      simp only [List.mem_append]
      simp only [List.mem_cons, List.not_mem_nil, or_false] at ht
      rcases ht with rfl | rfl | rfl | rfl
      · exact Or.inl (Or.inl (Or.inl (mem_dropnaStrs_of hcol)))
      · exact Or.inl (Or.inl (Or.inr (mem_dropnaStrs_of hcol)))
      · exact Or.inl (Or.inr (mem_dropnaStrs_of hcol))
      · exact Or.inr (mem_dropnaStrs_of hcol)
    simp only [isinSel]
    exact List.elem_iff.mpr hmem
  · have hpred : ∀ r ∈ tc.rows,
        sel.contains (rowVal tc "category_name" r) = true := by
      intro r hr
      have hvc : rowVal tc "category_name" r ∈ colVals tc "category_name" :=
        List.mem_map_of_mem _ hr
      have hin : rowVal tc "category_name" r ∈ sel :=
        pythonSorted_mem hsel _ (mem_uniqueFS_of_mem hvc)
      exact List.elem_iff.mpr hin
    unfold filterCat
    rw [List.filter_eq_self.mpr hpred]

theorem filter_identity_at_full_selection_witness :
    _f (all_states wStateT wStateT wStateT wStateT) wStateT "state_name" = wStateT ∧
      filterCat [Value.str "food", Value.str "rent"] wCatT = wCatT :=
  filter_identity_at_full_selection wStateT wStateT wStateT wStateT wStateT (by decide)
    (by decide) wCatT [Value.str "food", Value.str "rent"] (by decide) (by decide)

/-! ## C3 -/

/-- C3: for every table lacking the filter dimension's column and every
selection (including the empty one), `_f` returns the table unchanged —
same rows, same order, same columns. -/
theorem filter_missing_column_passthrough (t : Table) (col : String) (sel : List String)
    (h : t.hasCol col = false) : _f sel t col = t := by
  unfold _f
  simp [h]

theorem filter_missing_column_passthrough_witness :
    _f [] noStateColT "state_name" = noStateColT ∧
      _f ["goa"] noStateColT "state_name" = noStateColT :=
  ⟨filter_missing_column_passthrough noStateColT "state_name" [] (by decide),
   filter_missing_column_passthrough noStateColT "state_name" ["goa"] (by decide)⟩

/-! ## C10 -/

/-- C10: on a table containing the filter column, the filtered result keeps
the original columns and its rows form a sublist (subsequence, order
preserved, nothing duplicated or introduced) of the input rows, containing
exactly the rows whose column value is in the selection; enlarging the
selection only enlarges the result.  The same holds for the category
filter. -/
theorem filter_subsequence_monotone (t : Table) (col : String) (sel sel' : List String)
    (h : t.hasCol col = true) (hsub : sel ⊆ sel') :
    List.Sublist (_f sel t col).rows t.rows
  ∧ (∀ r, r ∈ (_f sel t col).rows ↔ r ∈ t.rows ∧ isinSel (rowVal t col r) sel = true)
  ∧ (_f sel t col).cols = t.cols
  ∧ (∀ r ∈ (_f sel t col).rows, r ∈ (_f sel' t col).rows)
  ∧ (∀ (tc : Table) (cs cs' : List Value), cs ⊆ cs' →
       List.Sublist (filterCat cs tc).rows tc.rows
     ∧ (∀ r, r ∈ (filterCat cs tc).rows ↔
          r ∈ tc.rows ∧ cs.contains (rowVal tc "category_name" r) = true)
     ∧ (∀ r ∈ (filterCat cs tc).rows, r ∈ (filterCat cs' tc).rows)) := by
  have hf : ∀ s : List String,
      _f s t col = { t with rows := t.rows.filter (fun r => isinSel (rowVal t col r) s) } := by
    intro s
    unfold _f
    rw [if_pos h]
  refine ⟨?_, ?_, ?_, ?_, ?_⟩
  · rw [hf]
    exact List.filter_sublist _
  · rw [hf]
    intro r
    exact List.mem_filter
  · rw [hf]
  · rw [hf, hf]
    intro r hr
    rcases List.mem_filter.mp hr with ⟨hmem, hp⟩
    exact List.mem_filter.mpr ⟨hmem, isinSel_mono hsub hp⟩
  · intro tc cs cs' hcsub
    unfold filterCat
    refine ⟨List.filter_sublist _, fun r => List.mem_filter, ?_⟩
    intro r hr
    rcases List.mem_filter.mp hr with ⟨hmem, hp⟩
    exact List.mem_filter.mpr
      ⟨hmem, List.elem_iff.mpr (hcsub (List.elem_iff.mp hp))⟩

theorem filter_subsequence_monotone_witness :
    List.Sublist (_f ["goa"] wStateT "state_name").rows wStateT.rows
  ∧ (∀ r, r ∈ (_f ["goa"] wStateT "state_name").rows ↔
      r ∈ wStateT.rows ∧ isinSel (rowVal wStateT "state_name" r) ["goa"] = true)
  ∧ (_f ["goa"] wStateT "state_name").cols = wStateT.cols
  ∧ (∀ r ∈ (_f ["goa"] wStateT "state_name").rows,
      r ∈ (_f ["goa", "kerala"] wStateT "state_name").rows)
  ∧ (∀ (tc : Table) (cs cs' : List Value), cs ⊆ cs' →
       List.Sublist (filterCat cs tc).rows tc.rows
     ∧ (∀ r, r ∈ (filterCat cs tc).rows ↔
          r ∈ tc.rows ∧ cs.contains (rowVal tc "category_name" r) = true)
     ∧ (∀ r ∈ (filterCat cs tc).rows, r ∈ (filterCat cs' tc).rows)) :=
  filter_subsequence_monotone wStateT "state_name" ["goa"] ["goa", "kerala"]
    (by decide) (by decide)

/-! ## C2 -/

theorem mem_dropnaStrs {t : Table} {c s : String} :
    s ∈ dropnaStrs t c ↔
      ∃ v ∈ colVals t c, v ≠ Value.null ∧ valueToString v = s := by
  unfold dropnaStrs
  rw [List.mem_filterMap]
  constructor
  · rintro ⟨v, hv, he⟩
    cases v with
    | null => exact Option.noConfusion he
    | str s0 => exact ⟨Value.str s0, hv, by simp, Option.some.inj he⟩
    | int n => exact ⟨Value.int n, hv, by simp, Option.some.inj he⟩
    | rat q => exact ⟨Value.rat q, hv, by simp, Option.some.inj he⟩
  · rintro ⟨v, hv, hnn, hvs⟩
    refine ⟨v, hv, ?_⟩
    cases v with
    | null => exact absurd rfl hnn
    | str s0 => exact congrArg some hvs
    | int n => exact congrArg some hvs
    | rat q => exact congrArg some hvs

theorem mem_statesFold {ts : List Table} {s : String} :
    s ∈ ts.foldr (fun t acc => dropnaStrs t "state_name" ++ acc) [] ↔
      ∃ t ∈ ts, s ∈ dropnaStrs t "state_name" := by
  induction ts with
  | nil => simp
  | cons t ts ih => simp [List.mem_append, ih]

/-- C2 counterexample: the computed category valid-value list contains a
null entry when the category column holds a null — `all_categories` omits
the `dropna` step that `all_states` performs. -/
theorem all_categories_can_contain_null :
    Value.null ∈ (all_categories catNullT).getD [] := by decide

/-- C2 (amended): the state valid-value list is lexicographically sorted,
duplicate-free, contains exactly the stringifications of the non-null
`state_name` entries (so no entry arises from a null), and is the same list
whatever the order in which the source tables are combined; the category
valid-value list enjoys sortedness, dedup and null-freedom only under the
extra premise that the category column holds no null (the code has no
`dropna` there — see the counterexample). -/
theorem dimension_values_sorted_nodup
    (t1 t3 t4 t5 : Table) (ts ts' : List Table) (hperm : List.Perm ts ts')
    (tc : Table) (sel : List Value)
    (hstr : ∀ v ∈ colVals tc "category_name", v.isStr = true)
    (hsel : all_categories tc = some sel) :
    (allStatesL ts).Sorted (brel strLE)
  ∧ (allStatesL ts).Nodup
  ∧ (∀ s, s ∈ allStatesL ts ↔
      ∃ t ∈ ts, ∃ v ∈ colVals t "state_name", v ≠ Value.null ∧ valueToString v = s)
  ∧ allStatesL ts = allStatesL ts'
  ∧ all_states t1 t3 t4 t5 = allStatesL [t1, t3, t4, t5]
  ∧ sel.Sorted (brel (fun a b => strLE (valueToString a) (valueToString b)))
  ∧ sel.Nodup
  ∧ (∀ v ∈ sel, v.isStr = true) := by
  have hall : (uniqueFS (colVals tc "category_name")).all Value.isStr = true :=
    List.all_eq_true.mpr (fun v hv => hstr v (mem_of_mem_uniqueFS hv))
  have hps : all_categories tc =
      some (sortB (fun a b => strLE (valueToString a) (valueToString b))
        (uniqueFS (colVals tc "category_name"))) := by
    unfold all_categories pythonSorted
    rw [if_pos hall]
  have hseleq : sel = sortB (fun a b => strLE (valueToString a) (valueToString b))
      (uniqueFS (colVals tc "category_name")) :=
    Option.some.inj ((hsel.symm).trans hps)
  refine ⟨sortStr_sorted _, sortB_nodup (List.nodup_dedup _), ?_, ?_, ?_, ?_, ?_, ?_⟩
  · intro s
    unfold allStatesL sortStr
    rw [mem_sortB, List.mem_dedup, mem_statesFold]
    constructor
    · rintro ⟨t, hts, hds⟩
      exact ⟨t, hts, mem_dropnaStrs.mp hds⟩
    · rintro ⟨t, hts, hv⟩
      exact ⟨t, hts, mem_dropnaStrs.mpr hv⟩
  · refine sortStr_eq_of_same_mem (List.nodup_dedup _) (List.nodup_dedup _) ?_
    intro s
    rw [List.mem_dedup, List.mem_dedup, mem_statesFold, mem_statesFold]
    constructor
    · rintro ⟨t, hts, hds⟩
      exact ⟨t, hperm.mem_iff.mp hts, hds⟩
    · rintro ⟨t, hts, hds⟩
      exact ⟨t, hperm.mem_iff.mpr hts, hds⟩
  · unfold all_states allStatesL
    simp
  · rw [hseleq]
    exact sortB_sorted _
      (fun a b => strLE_total (valueToString a) (valueToString b))
      (fun _ _ _ h1 h2 => strLE_trans h1 h2) _
  · rw [hseleq]
    exact sortB_nodup (uniqueFS_nodup _)
  · intro v hv
    rw [hseleq] at hv
    exact hstr v (mem_of_mem_uniqueFS (mem_sortB.mp hv))

theorem dimension_values_sorted_nodup_witness :
    (allStatesL [wStateT, noStateColT]).Sorted (brel strLE)
  ∧ (allStatesL [wStateT, noStateColT]).Nodup
  ∧ (∀ s, s ∈ allStatesL [wStateT, noStateColT] ↔
      ∃ t ∈ [wStateT, noStateColT],
        ∃ v ∈ colVals t "state_name", v ≠ Value.null ∧ valueToString v = s)
  ∧ allStatesL [wStateT, noStateColT] = allStatesL [noStateColT, wStateT]
  ∧ all_states wStateT wStateT wStateT wStateT = allStatesL [wStateT, wStateT, wStateT, wStateT]
  ∧ ([Value.str "food", Value.str "rent"] : List Value).Sorted
      (brel (fun a b => strLE (valueToString a) (valueToString b)))
  ∧ ([Value.str "food", Value.str "rent"] : List Value).Nodup
  ∧ (∀ v ∈ ([Value.str "food", Value.str "rent"] : List Value), v.isStr = true) := by
  have h := dimension_values_sorted_nodup wStateT wStateT wStateT wStateT
    [wStateT, noStateColT] [noStateColT, wStateT] (List.Perm.swap _ _ _)
    wCatT [Value.str "food", Value.str "rent"] (by decide) (by decide)
  exact h

/-! ## C4 -/

theorem pivotTableCell_of_contrib {t : Table} {i c v rk ck : String}
    {r0 : List Value} {rs : List (List Value)}
    (hc : contribRows t i c rk ck = r0 :: rs) :
    pivotTableCell t i c v rk ck = some (aggSum t v (r0 :: rs)) := by
  unfold pivotTableCell
  rw [hc]

theorem unstackCell_of_some {t : Table} {i c v rk ck : String} {q : ℚ}
    (h : pivotTableCell t i c v rk ck = some q) :
    unstackCell t i c v rk ck = q := by
  unfold unstackCell
  rw [h]

/-- C4 counterexample: on the spec's own example rows {(A,X,3), (A,X,5),
(B,Y,2)}, the `pivot_table` of line 106-107 (which declares no
`fill_value`) leaves the (A,Y) cell NaN (`none`), not the claimed numeric
fill 0. -/
theorem pivot_table_empty_cell_is_nan :
    pivotTableCell pivotExT "state_name" "quarter" "total_transactions" "A" "Y" ≠ some 0
  ∧ pivotTableCell pivotExT "state_name" "quarter" "total_transactions" "A" "Y" = none := by
  constructor
  · decide
  · decide

/-- C4 (amended): duplicate (row, column) contributions are combined with
`sum` in both pivoted views: on the example rows the A/X cell is 8 and the
B/Y cell is 2 in both.  Cells with no contributing rows are 0 only in the
`groupby(...).sum().unstack(fill_value=0)` view of line 117-118; in the
`pivot_table` view of line 106-107 they are NaN (`none`), pandas' default
when no fill value is declared. -/
theorem pivot_aggregation_sum_and_fill :
    pivotTableCell pivotExT "state_name" "quarter" "total_transactions" "A" "X" = some 8
  ∧ pivotTableCell pivotExT "state_name" "quarter" "total_transactions" "B" "Y" = some 2
  ∧ pivotTableCell pivotExT "state_name" "quarter" "total_transactions" "A" "Y" = none
  ∧ pivotTableCell pivotExT "state_name" "quarter" "total_transactions" "B" "X" = none
  ∧ unstackCell pivotExT "state_name" "quarter" "total_transactions" "A" "X" = 8
  ∧ unstackCell pivotExT "state_name" "quarter" "total_transactions" "B" "Y" = 2
  ∧ unstackCell pivotExT "state_name" "quarter" "total_transactions" "A" "Y" = 0
  ∧ unstackCell pivotExT "state_name" "quarter" "total_transactions" "B" "X" = 0 := by
  have hcAX : contribRows pivotExT "state_name" "quarter" "A" "X" =
      [[Value.str "A", Value.str "X", Value.int 3],
       [Value.str "A", Value.str "X", Value.int 5]] := by decide
  have hcBY : contribRows pivotExT "state_name" "quarter" "B" "Y" =
      [[Value.str "B", Value.str "Y", Value.int 2]] := by decide
  have hfmAX : List.filterMap (fun r => valNum (rowVal pivotExT "total_transactions" r))
      [[Value.str "A", Value.str "X", Value.int 3],
       [Value.str "A", Value.str "X", Value.int 5]] = [(3:ℚ), (5:ℚ)] := by decide
  have hfmBY : List.filterMap (fun r => valNum (rowVal pivotExT "total_transactions" r))
      [[Value.str "B", Value.str "Y", Value.int 2]] = [(2:ℚ)] := by decide
  have haAX : aggSum pivotExT "total_transactions"
      [[Value.str "A", Value.str "X", Value.int 3],
       [Value.str "A", Value.str "X", Value.int 5]] = 8 := by
    unfold aggSum
    rw [hfmAX]
    norm_num [List.sum_cons, List.sum_nil]
  have haBY : aggSum pivotExT "total_transactions"
      [[Value.str "B", Value.str "Y", Value.int 2]] = 2 := by
    unfold aggSum
    rw [hfmBY]
    norm_num [List.sum_cons, List.sum_nil]
  have hAX : pivotTableCell pivotExT "state_name" "quarter" "total_transactions" "A" "X"
      = some 8 := by
    rw [pivotTableCell_of_contrib hcAX, haAX]
  have hBY : pivotTableCell pivotExT "state_name" "quarter" "total_transactions" "B" "Y"
      = some 2 := by
    rw [pivotTableCell_of_contrib hcBY, haBY]
  refine ⟨hAX, hBY, by decide, by decide,
    unstackCell_of_some hAX, unstackCell_of_some hBY, by decide, by decide⟩

/-! ## C5 -/

/-- C5 counterexample: the pivoted time axis is ordered by lexicographic
string sort of the display key, not by the numeric (year, quarter) tuple:
with years 999 and 1000 the index places "1000-Q1" before "999-Q1",
disagreeing with the numeric year order 999 < 1000. -/
theorem time_axis_not_numeric_order :
    pivotIndexOf (dfAreaPipeline area999T) = ["1000-Q1", "999-Q1"]
  ∧ pivotIndexOf (dfAreaPipeline area999T) ≠ ["999-Q1", "1000-Q1"] := by
  constructor
  · decide
  · decide

/-- C5 (amended): the pivoted time axis is ordered by lexicographic string
sort of the concatenated `year-Qquarter` display key (the numeric
(state, year, quarter) `sort_values` of line 221 does not determine the
pivot index).  For the four-digit years of the data (here 2018-2030) with
single-digit quarters, string order coincides with numeric (year, quarter)
order; in particular (2023, Q4) is ordered before (2024, Q1). -/
theorem time_axis_string_order :
    ((List.range 13).all fun a => (List.range 13).all fun b =>
      (List.range 4).all fun qa => (List.range 4).all fun qb =>
        ((decide ((2018 + (a : Int)) < 2018 + (b : Int)) ||
          ((2018 + (a : Int)) == 2018 + (b : Int) &&
            decide ((1 + (qa : Int)) < 1 + (qb : Int)))) ==
          strLT (mkTime (2018 + (a : Int)) (1 + (qa : Int)))
                (mkTime (2018 + (b : Int)) (1 + (qb : Int))))) = true
  ∧ pivotIndexOf (dfAreaPipeline area2023T) = ["2023-Q4", "2024-Q1"]
  ∧ pivotIndexOf (dfAreaPipeline (sortValuesSYQ area2023T)) =
      pivotIndexOf (dfAreaPipeline area2023T) := by
  refine ⟨by decide, by decide, by decide⟩

/-! ## C6 -/

/-- C6: in `pd.cut` binning with default `right=True` buckets `(lo, hi]`, a
value exactly equal to the upper edge of bucket `i` (equivalently, equal to
any bin edge after the first) is assigned bucket `i` — the lower of the two
buckets meeting at that edge; in particular `usage_tier` labels the value
0.1 with "Low", the first bucket's label. -/
theorem binning_right_closed_boundary (bins : List ℚ) (labels : List String) (i : Nat)
    (hs : bins.Sorted (· < ·)) (hb : i + 1 < bins.length) (hl : i < labels.length) :
    pdCut bins labels (bins.get ⟨i + 1, hb⟩) = some (labels.get ⟨i, hl⟩)
  ∧ usage_tier (1/10) = some "Low" := by
  refine ⟨?_, by norm_num [usage_tier, pdCut]⟩
  induction i generalizing bins labels with
  | zero =>
    cases bins with
    | nil => simp at hb
    | cons b0 bt =>
      cases bt with
      | nil => simp at hb
      | cons b1 bs =>
        cases labels with
        | nil => simp at hl
        | cons l0 ls =>
          show pdCut (b0 :: b1 :: bs) (l0 :: ls) b1 = some l0
          rw [pdCut]
          rw [if_pos ⟨List.rel_of_sorted_cons hs b1 (List.mem_cons_self _ _), le_refl b1⟩]
  | succ i ih =>
    cases bins with
    | nil => simp at hb
    | cons b0 bt =>
      cases bt with
      | nil => simp at hb
      | cons b1 bs =>
        cases labels with
        | nil => simp at hl
        | cons l0 ls =>
          have hb' : i + 1 < (b1 :: bs).length := by
            simpa [Nat.succ_lt_succ_iff] using hb
          have hl' : i < ls.length := by
            simpa [Nat.succ_lt_succ_iff] using hl
          have hget : (b0 :: b1 :: bs).get ⟨i + 1 + 1, hb⟩ = (b1 :: bs).get ⟨i + 1, hb'⟩ := rfl
          have hlget : (l0 :: ls).get ⟨i + 1, hl⟩ = ls.get ⟨i, hl'⟩ := rfl
          rw [hget, hlget]
          have hi' : i < bs.length := by
            simpa [Nat.succ_lt_succ_iff] using hb'
          have hmem : (b1 :: bs).get ⟨i + 1, hb'⟩ ∈ bs := by
            have he : (b1 :: bs).get ⟨i + 1, hb'⟩ = bs.get ⟨i, hi'⟩ := rfl
            rw [he]
            exact List.get_mem bs i hi'
          have hlt : b1 < (b1 :: bs).get ⟨i + 1, hb'⟩ :=
            List.rel_of_sorted_cons hs.of_cons _ hmem
          rw [pdCut, if_neg (fun hand => absurd hand.2 (not_le.mpr hlt))]
          exact ih (b1 :: bs) ls hs.of_cons hb' hl'

theorem binning_right_closed_boundary_witness :
    pdCut [0, 1/10, 2/10, 3/10] ["Low", "Medium", "High"]
      (([0, 1/10, 2/10, 3/10] : List ℚ).get ⟨1, by norm_num⟩) =
      some ((["Low", "Medium", "High"] : List String).get ⟨0, by norm_num⟩)
  ∧ usage_tier (1/10) = some "Low" :=
  binning_right_closed_boundary [0, 1/10, 2/10, 3/10] ["Low", "Medium", "High"] 0
    (by norm_num) (by norm_num) (by norm_num)

/-! ## C7 -/

theorem isinSel_empty (v : Value) : isinSel v [] = false := by
  cases v <;> simp [isinSel]

theorem pivotVal_ok_of_empty {T : Table} (h : T.rows = []) :
    exceptOk (pivotVal T) = true := by
  unfold pivotVal
  rw [h]
  simp [exceptOk]

theorem dfAreaPipeline_rows_empty {T : Table} (h : T.rows = []) :
    (dfAreaPipeline T).rows = [] := by
  unfold dfAreaPipeline sortValuesSYQ addTimeCol
  rw [h]
  rfl

/-- C7: filtering a table that contains the dimension column with the empty
selection yields a table with zero rows, and the downstream view
derivations all complete on it without raising: the area-chart pivot (the
one derivation that can raise, on duplicate keys) succeeds, and the
pivot-table and unstack grids are empty tables; likewise the category
filter with an empty selection yields zero rows. -/
theorem empty_selection_empty_result_no_raise (t : Table)
    (h : t.hasCol "state_name" = true) (tc : Table) :
    (_f [] t "state_name").rows = []
  ∧ exceptOk (pivotVal (dfAreaPipeline (_f [] t "state_name"))) = true
  ∧ (pivotTableGrid (_f [] t "state_name") "state_name" "quarter" "total_transactions").rows = []
  ∧ (unstackGrid (_f [] t "state_name") "quarter" "state_name" "total_amount").rows = []
  ∧ (filterCat [] tc).rows = [] := by
  have hrows : (_f [] t "state_name").rows = [] := by
    unfold _f
    rw [if_pos h]
    refine List.filter_eq_nil_iff.mpr ?_
    intro r hr
    simp [isinSel_empty]
  have hkeys : ∀ c : String, sortedKeys (_f [] t "state_name") c = [] := by
    intro c
    unfold sortedKeys dropnaStrs colVals
    rw [hrows]
    rfl
  refine ⟨hrows, pivotVal_ok_of_empty (dfAreaPipeline_rows_empty hrows), ?_, ?_, ?_⟩
  · unfold pivotTableGrid
    simp [hkeys]
  · unfold unstackGrid
    simp [hkeys]
  · unfold filterCat
    refine List.filter_eq_nil_iff.mpr ?_
    intro r hr
    simp

theorem empty_selection_empty_result_no_raise_witness :
    (_f [] wStateT "state_name").rows = []
  ∧ exceptOk (pivotVal (dfAreaPipeline (_f [] wStateT "state_name"))) = true
  ∧ (pivotTableGrid (_f [] wStateT "state_name") "state_name" "quarter" "total_transactions").rows = []
  ∧ (unstackGrid (_f [] wStateT "state_name") "quarter" "state_name" "total_amount").rows = []
  ∧ (filterCat [] wCatT).rows = [] :=
  empty_selection_empty_result_no_raise wStateT (by decide) wCatT

/-! ## C8 -/

/-- C8 (spec-modelled): setting a dimension's selection with any value
outside that dimension's valid value set fails with `InvalidValueError`,
and the failure leaves the previous selection unchanged — for every prior
state and every invalid candidate, the state after the rejected call equals
the prior state. -/
theorem set_selection_invalid_rejected_atomic
    (valid current selected_values : List String) (v : String)
    (hv : v ∈ selected_values) (hnv : ¬ v ∈ valid) :
    setSelection valid selected_values = Except.error FilterError.InvalidValueError
  ∧ afterSet valid current selected_values = current := by
  have hset : setSelection valid selected_values =
      Except.error FilterError.InvalidValueError := by
    unfold setSelection
    exact if_neg (fun hc => absurd (List.elem_iff.mp (List.all_eq_true.mp hc v hv)) hnv)
  refine ⟨hset, ?_⟩
  unfold afterSet
  rw [hset]

theorem set_selection_invalid_rejected_atomic_witness :
    setSelection ["goa", "kerala"] ["goa", "mars"] = Except.error FilterError.InvalidValueError
  ∧ afterSet ["goa", "kerala"] ["kerala"] ["goa", "mars"] = ["kerala"] :=
  set_selection_invalid_rejected_atomic ["goa", "kerala"] ["kerala"] ["goa", "mars"] "mars"
    (by decide) (by decide)

/-! ## C9 -/

/-- C9: replaying every frame derivation of the script (filters, pivots,
unstack, sorts, the sunburst copy with its `usage_tier` column assignment,
the area-chart copy with its `time` column assignment) over the heap of
DataFrame references leaves each of the six source frames exactly equal to
its state at load time — the script's column assignments only ever mutate
fresh `copy()` frames. -/
theorem source_tables_immutable (t1 t2 t3 t4 t5 tc : Table)
    (selS : List String) (selC : List Value) :
    ((runDashboard (loadAll t1 t2 t3 t4 t5 tc).1 (loadAll t1 t2 t3 t4 t5 tc).2 selS selC).1).read
        (loadAll t1 t2 t3 t4 t5 tc).2.r1 = t1
  ∧ ((runDashboard (loadAll t1 t2 t3 t4 t5 tc).1 (loadAll t1 t2 t3 t4 t5 tc).2 selS selC).1).read
        (loadAll t1 t2 t3 t4 t5 tc).2.r2 = t2
  ∧ ((runDashboard (loadAll t1 t2 t3 t4 t5 tc).1 (loadAll t1 t2 t3 t4 t5 tc).2 selS selC).1).read
        (loadAll t1 t2 t3 t4 t5 tc).2.r3 = t3
  ∧ ((runDashboard (loadAll t1 t2 t3 t4 t5 tc).1 (loadAll t1 t2 t3 t4 t5 tc).2 selS selC).1).read
        (loadAll t1 t2 t3 t4 t5 tc).2.r4 = t4
  ∧ ((runDashboard (loadAll t1 t2 t3 t4 t5 tc).1 (loadAll t1 t2 t3 t4 t5 tc).2 selS selC).1).read
        (loadAll t1 t2 t3 t4 t5 tc).2.r5 = t5
  ∧ ((runDashboard (loadAll t1 t2 t3 t4 t5 tc).1 (loadAll t1 t2 t3 t4 t5 tc).2 selS selC).1).read
        (loadAll t1 t2 t3 t4 t5 tc).2.rcat = tc := by
  exact ⟨rfl, rfl, rfl, rfl, rfl, rfl⟩
